import Mathlib

/-!
Verification of the PSX CPU-core against its specification.

The definitions below are a shallow embedding of `src/psx/cpu.rs` and
`src/psx/mod.rs`. Machine integers (`u32`) are modelled as `Nat` with
explicit `% 2 ^ 32` wherever the Rust code wraps; register indices are
`Fin 32` (the Rust code always derives them from 5-bit instruction
fields); width-generic bus accesses are modelled with an explicit
`width` argument (1, 2 or 4 bytes), and Rust panics (out-of-bounds
array indexing) are modelled by `Option`.
-/

namespace Psx

/-! ### Register file and CPU state (`src/psx/cpu.rs`) -/

-- const RESET_PC: u32 = 0xbfc00000;
def RESET_PC : Nat := 0xbfc00000

/-- CPU state: `struct Cpu` -- general registers, pc/next_pc, the single
pending delayed load, and the HI/LO pair. -/
structure Cpu where
  regs : Fin 32 → Nat
  pc : Nat
  next_pc : Nat
  delayed_load : Option (Fin 32 × Nat)
  hi : Nat
  lo : Nat

def Cpu.new : Cpu :=
  { regs := fun _ => 0
    pc := RESET_PC
    next_pc := (RESET_PC + 4) % 2 ^ 32
    delayed_load := none
    hi := 0
    lo := 0 }

/-- `Cpu::set_reg`: write `val` into `regs[reg]`, then re-clear `regs[0]`. -/
def Cpu.set_reg (cpu : Cpu) (reg : Fin 32) (val : Nat) : Cpu :=
  { cpu with regs := Function.update (Function.update cpu.regs reg val) 0 0 }

/-- `Cpu::delayed_load` (the method): commit the pending delayed load, if
any, through `set_reg` and clear the pending slot. Named
`commit_delayed_load` here because the Rust method shares its name with
the `delayed_load` field. -/
def Cpu.commit_delayed_load (cpu : Cpu) : Cpu :=
  match cpu.delayed_load with
  | some (reg, val) => { cpu.set_reg reg val with delayed_load := none }
  | none => cpu

/-! ### Instruction decoder (`struct Instruction`) -/

/-- A raw 32-bit instruction word. -/
structure Instruction where
  word : Nat

def Instruction.new (i : Nat) : Instruction := ⟨i⟩

/-- A 5-bit field is always a valid register index. -/
def fieldFin (n : Nat) : Fin 32 :=
  ⟨n &&& 0x1f, lt_of_le_of_lt Nat.and_le_right (by norm_num)⟩

-- Primary opcode field: (self.0 >> 26) & 0x3f
def Instruction.op (i : Instruction) : Nat := (i.word >>> 26) &&& 0x3f

-- Secondary opcode field: self.0 & 0x1f  (sic: the mask in the source)
def Instruction.op2 (i : Instruction) : Nat := i.word &&& 0x1f

-- Source register or base: (self.0 >> 21) & 0x1f
def Instruction.rs (i : Instruction) : Fin 32 := fieldFin (i.word >>> 21)

-- Source register: (self.0 >> 16) & 0x1f
def Instruction.rt (i : Instruction) : Fin 32 := fieldFin (i.word >>> 16)

-- Destination register: (self.0 >> 11) & 0x1f
def Instruction.rd (i : Instruction) : Fin 32 := fieldFin (i.word >>> 11)

-- Shift immediate values: (self.0 >> 6) & 0x1f
def Instruction.sa (i : Instruction) : Nat := (i.word >>> 6) &&& 0x1f

/-- 16-bit signed immediate: `((self.0 & 0xffff) as i16) as u32`, i.e.
the low 16 bits sign-extended to 32 bits. -/
def Instruction.simm (i : Instruction) : Nat :=
  let low := i.word &&& 0xffff
  if low < 0x8000 then low else 0xffff0000 + low

-- 16-bit zero-extended immediate: self.0 & 0xfff  (sic: the mask in the source)
def Instruction.imm (i : Instruction) : Nat := i.word &&& 0xfff

-- Immediate value for jump instructions: (self.0 & 0x03ffffff) << 2
def Instruction.jimm (i : Instruction) : Nat := (i.word &&& 0x03ffffff) <<< 2

/-! ### 32-bit arithmetic helpers -/

/-- `u32::wrapping_add`. -/
def wrapping_add (a b : Nat) : Nat := (a + b) % 2 ^ 32

/-- `u32::wrapping_sub` (for operands below `2 ^ 32`). -/
def wrapping_sub (a b : Nat) : Nat := (a + (2 ^ 32 - b % 2 ^ 32)) % 2 ^ 32

/-- Reinterpret a `u32` bit pattern (a `Nat` below `2 ^ 32`) as an `i32`. -/
def toI32 (v : Nat) : Int := if v < 2 ^ 31 then (v : Int) else (v : Int) - 2 ^ 32

/-- Bitwise complement of a `u32` bit pattern. -/
def not32 (v : Nat) : Nat := v ^^^ 0xffffffff

/-! ### Instruction handlers -/

-- Add unsigned word
def addu (cpu : Cpu) (i : Instruction) : Cpu :=
  let s := cpu.regs i.rs
  let t := cpu.regs i.rt
  let cpu := cpu.commit_delayed_load
  cpu.set_reg i.rd (wrapping_add s t)

-- Subtract unsigned word
def subu (cpu : Cpu) (i : Instruction) : Cpu :=
  let s := cpu.regs i.rs
  let t := cpu.regs i.rt
  let cpu := cpu.commit_delayed_load
  cpu.set_reg i.rd (wrapping_sub s t)

-- Add immediate unsigned word (sic: the source writes to `rd`)
def addiu (cpu : Cpu) (i : Instruction) : Cpu :=
  let s := cpu.regs i.rs
  let imm := i.simm
  let cpu := cpu.commit_delayed_load
  cpu.set_reg i.rd (wrapping_add s imm)

-- Set on less than
def slt (cpu : Cpu) (i : Instruction) : Cpu :=
  let s := toI32 (cpu.regs i.rs)
  let t := toI32 (cpu.regs i.rt)
  let cpu := cpu.commit_delayed_load
  cpu.set_reg i.rd (if s < t then 1 else 0)

-- Set on less than unsigned
def sltu (cpu : Cpu) (i : Instruction) : Cpu :=
  let s := cpu.regs i.rs
  let t := cpu.regs i.rt
  let cpu := cpu.commit_delayed_load
  cpu.set_reg i.rd (if s < t then 1 else 0)

-- Set on less than immediate
def slti (cpu : Cpu) (i : Instruction) : Cpu :=
  let s := toI32 (cpu.regs i.rs)
  let imm := toI32 i.simm
  let cpu := cpu.commit_delayed_load
  cpu.set_reg i.rt (if s < imm then 1 else 0)

-- Set on less than immediate unsigned
def sltiu (cpu : Cpu) (i : Instruction) : Cpu :=
  let s := cpu.regs i.rs
  let imm := i.simm
  let cpu := cpu.commit_delayed_load
  cpu.set_reg i.rt (if s < imm then 1 else 0)

-- Bitwise logical AND
def and (cpu : Cpu) (i : Instruction) : Cpu :=
  let s := cpu.regs i.rs
  let t := cpu.regs i.rt
  let cpu := cpu.commit_delayed_load
  cpu.set_reg i.rd (s &&& t)

-- Bitwise logical OR
def or (cpu : Cpu) (i : Instruction) : Cpu :=
  let s := cpu.regs i.rs
  let t := cpu.regs i.rt
  let cpu := cpu.commit_delayed_load
  cpu.set_reg i.rd (s ||| t)

-- Bitwise logical exclusive OR
def xor (cpu : Cpu) (i : Instruction) : Cpu :=
  let s := cpu.regs i.rs
  let t := cpu.regs i.rt
  let cpu := cpu.commit_delayed_load
  cpu.set_reg i.rd (s ^^^ t)

-- Bitwise logical NOT OR
def nor (cpu : Cpu) (i : Instruction) : Cpu :=
  let s := cpu.regs i.rs
  let t := cpu.regs i.rt
  let cpu := cpu.commit_delayed_load
  cpu.set_reg i.rd (not32 (s ||| t))

-- Bitwise logical OR with a constant
def ori (cpu : Cpu) (i : Instruction) : Cpu :=
  let s := cpu.regs i.rs
  let imm := i.imm
  let cpu := cpu.commit_delayed_load
  cpu.set_reg i.rt (s ||| imm)

-- Bitwise logical exclusive OR with a constant
def xori (cpu : Cpu) (i : Instruction) : Cpu :=
  let s := cpu.regs i.rs
  let imm := i.imm
  let cpu := cpu.commit_delayed_load
  cpu.set_reg i.rt (s ^^^ imm)

/-- `REG_NAMES`: the register-name table used by the `Display` impl,
exactly as written in the source. -/
def REG_NAMES : List String :=
  ["r0", "at", "v0", "v1", "a0", "a1", "a2", "a3",
   "t0", "t1", "t2", "t3", "t4", "t5", "t6", "t7",
   "s0", "s1", "s2", "s3", "s4", "s5", "s7", "s7",
   "t8", "t9", "k0", "k1", "gp", "sp", "fp", "ra"]

/-- The `Display` impl pairs each register's name with its value, in
register order, after a `pc` line; modelled as the list of
(name, value) pairs. -/
def Cpu.dumpPairs (cpu : Cpu) : List (String × Nat) :=
  (List.finRange 32).map fun j => (REG_NAMES.getD j.val "", cpu.regs j)

/-! ### Scratchpad (`src/psx/mod.rs`)

`ScratchPad::load`/`store` run `offset & 0x7fffff` and then index the
1024-byte array once per byte of the transfer; an index at or past 1024
is a Rust panic, modelled as `none`. `W::WIDTH` is 1, 2 or 4 and
`W::from_u32` truncates the assembled value to the width. -/

-- const SCRATCHPAD_SIZE: usize = 1024;
def SCRATCHPAD_SIZE : Nat := 1024

structure ScratchPad where
  dat : Fin SCRATCHPAD_SIZE → Nat

def ScratchPad.new : ScratchPad := ⟨fun _ => 0⟩

/-- Bounds-checked byte read (`self.dat[idx]`; panic is `none`). -/
def ScratchPad.byte (sp : ScratchPad) (idx : Nat) : Option Nat :=
  if h : idx < SCRATCHPAD_SIZE then some (sp.dat ⟨idx, h⟩) else none

/-- The load loop: `for i in 0..WIDTH { val |= (self.dat[offset + i] as u32) << (i * 8) }`. -/
def loadBytes (sp : ScratchPad) (offset : Nat) : Nat → Option Nat
  | 0 => some 0
  | n + 1 => do
    let acc ← loadBytes sp offset n
    let b ← sp.byte (offset + n)
    pure (acc ||| b <<< (n * 8))

/-- `ScratchPad::load::<W>`: mask the offset with `0x7fffff`, assemble
`WIDTH` bytes little-endian, convert with `W::from_u32`. -/
def ScratchPad.load (sp : ScratchPad) (width offset : Nat) : Option Nat :=
  (loadBytes sp (offset &&& 0x7fffff) width).map fun v => v % 2 ^ (8 * width)

/-- The store loop: `for i in 0..WIDTH { self.dat[offset + i] = (val >> (i * 8)) as u8 }`. -/
def storeBytes (dat : Fin SCRATCHPAD_SIZE → Nat) (offset val : Nat) :
    Nat → Option (Fin SCRATCHPAD_SIZE → Nat)
  | 0 => some dat
  | n + 1 => do
    let d ← storeBytes dat offset val n
    if h : offset + n < SCRATCHPAD_SIZE then
      pure (Function.update d ⟨offset + n, h⟩ ((val >>> (n * 8)) % 2 ^ 8))
    else none

/-- `ScratchPad::store::<W>`: mask the offset with `0x7fffff`, write
`WIDTH` bytes little-endian. -/
def ScratchPad.store (sp : ScratchPad) (width offset val : Nat) : Option ScratchPad :=
  (storeBytes sp.dat (offset &&& 0x7fffff) val width).map ScratchPad.mk

/-! ### Address region mapper (`mod map` in `src/psx/mod.rs`) -/

namespace map

def REGION_MASKS : List Nat :=
  [0xFFFFFFFF, 0xFFFFFFFF, 0xFFFFFFFF, 0xFFFFFFFF, -- KUSEG: 2048MB
   0x7FFFFFFF, -- KSEG0: 512MB
   0x1FFFFFFF, -- KSEG1: 512MB
   0xFFFFFFFF, 0xFFFFFFFF]

/-- `map::mask`: `addr & REGION_MASKS[(addr >> 29) as usize]`. For a
32-bit address the index is below 8, so the `getD` default is never
taken. -/
def mask (addr : Nat) : Nat := addr &&& REGION_MASKS.getD (addr >>> 29) 0

end map

/-! ### Helper lemmas about the register file -/

theorem set_reg_regs_zero (cpu : Cpu) (reg : Fin 32) (val : Nat) :
    (cpu.set_reg reg val).regs 0 = 0 := by
  simp [Cpu.set_reg]

theorem set_reg_regs_ne (cpu : Cpu) (reg : Fin 32) (val : Nat) (j : Fin 32)
    (h0 : j ≠ 0) (hr : j ≠ reg) : (cpu.set_reg reg val).regs j = cpu.regs j := by
  simp [Cpu.set_reg, Function.update_noteq h0, Function.update_noteq hr]

theorem set_reg_regs_self (cpu : Cpu) (reg : Fin 32) (val : Nat) (h : reg ≠ 0) :
    (cpu.set_reg reg val).regs reg = val := by
  simp [Cpu.set_reg, Function.update_noteq h]

theorem set_reg_delayed (cpu : Cpu) (reg : Fin 32) (val : Nat) :
    (cpu.set_reg reg val).delayed_load = cpu.delayed_load := rfl

theorem commit_of_pending (cpu : Cpu) (r : Fin 32) (V : Nat)
    (hp : cpu.delayed_load = some (r, V)) :
    cpu.commit_delayed_load = { cpu.set_reg r V with delayed_load := none } := by
  simp [Cpu.commit_delayed_load, hp]

theorem commit_regs_zero (cpu : Cpu) (h : cpu.regs 0 = 0) :
    (cpu.commit_delayed_load).regs 0 = 0 := by
  unfold Cpu.commit_delayed_load
  match hd : cpu.delayed_load with
  | some (reg, val) => exact set_reg_regs_zero cpu reg val
  | none => exact h

/-- The shared shape of every ALU-class handler after its operand reads:
commit the pending load, then `set_reg` the destination with a value
computed from the pre-commit register file. -/
theorem commit_then_write (cpu : Cpu) (r : Fin 32) (V : Nat) (d : Fin 32) (e : Nat)
    (hp : cpu.delayed_load = some (r, V)) (hr : r ≠ 0) (hd : d ≠ r) :
    ((cpu.commit_delayed_load).set_reg d e).regs r = V ∧
    ((cpu.commit_delayed_load).set_reg d e).delayed_load = none ∧
    (d ≠ 0 → ((cpu.commit_delayed_load).set_reg d e).regs d = e) := by
  rw [commit_of_pending cpu r V hp]
  refine ⟨?_, rfl, fun hd0 => ?_⟩
  · rw [set_reg_regs_ne _ d e r hr (Ne.symm hd)]
    exact set_reg_regs_self cpu r V hr
  · exact set_reg_regs_self _ d e hd0

/-- Writing the destination observes only pre-commit operand values. -/
theorem write_regs_self (cpu : Cpu) (d : Fin 32) (e : Nat) (hd0 : d ≠ 0) :
    ((cpu.commit_delayed_load).set_reg d e).regs d = e :=
  set_reg_regs_self _ d e hd0

/-! ### Claim theorems -/

/-- C1: register 0 is hard-wired to zero. Any `set_reg` (in particular a
write targeting register 0 itself), any delayed-load commit starting
from a state where register 0 is 0, and every instruction handler leave
register 0 holding 0. -/
theorem C1_reg_zero_invariant (cpu : Cpu) (reg : Fin 32) (val : Nat) (i : Instruction)
    (h : cpu.regs 0 = 0) :
    (cpu.set_reg reg val).regs 0 = 0 ∧
    (cpu.set_reg 0 val).regs 0 = 0 ∧
    (cpu.commit_delayed_load).regs 0 = 0 ∧
    (addu cpu i).regs 0 = 0 ∧ (subu cpu i).regs 0 = 0 ∧ (addiu cpu i).regs 0 = 0 ∧
    (slt cpu i).regs 0 = 0 ∧ (sltu cpu i).regs 0 = 0 ∧ (slti cpu i).regs 0 = 0 ∧
    (sltiu cpu i).regs 0 = 0 ∧ (Psx.and cpu i).regs 0 = 0 ∧ (Psx.or cpu i).regs 0 = 0 ∧
    (Psx.xor cpu i).regs 0 = 0 ∧ (nor cpu i).regs 0 = 0 ∧
    (ori cpu i).regs 0 = 0 ∧ (xori cpu i).regs 0 = 0 :=
  ⟨set_reg_regs_zero cpu reg val, set_reg_regs_zero cpu 0 val, commit_regs_zero cpu h,
   set_reg_regs_zero _ _ _, set_reg_regs_zero _ _ _, set_reg_regs_zero _ _ _,
   set_reg_regs_zero _ _ _, set_reg_regs_zero _ _ _, set_reg_regs_zero _ _ _,
   set_reg_regs_zero _ _ _, set_reg_regs_zero _ _ _, set_reg_regs_zero _ _ _,
   set_reg_regs_zero _ _ _, set_reg_regs_zero _ _ _,
   set_reg_regs_zero _ _ _, set_reg_regs_zero _ _ _⟩

/-- C1 witness at a concrete state. -/
theorem C1_reg_zero_invariant_witness :
    Cpu.new.regs 0 = 0 ∧ (Cpu.new.set_reg 3 0xdead).regs 0 = 0 :=
  ⟨rfl, (C1_reg_zero_invariant Cpu.new 3 0xdead (Instruction.new 0) rfl).1⟩

/-- C2: with a delayed load of `V` into `r ≠ 0` pending, each ALU-class
handler reads its operands from the pre-commit register file (the old
values, even when an operand register is `r`), and afterwards
`regs[r] = V` (when the handler's destination is not `r`) with the
pending slot cleared. -/
theorem C2_delayed_load_ordering (cpu : Cpu) (r : Fin 32) (V : Nat) (i : Instruction)
    (hp : cpu.delayed_load = some (r, V)) (hr : r ≠ 0) (hd : i.rd ≠ r) :
    ((addu cpu i).regs r = V ∧ (addu cpu i).delayed_load = none ∧
      (i.rd ≠ 0 → (addu cpu i).regs i.rd = wrapping_add (cpu.regs i.rs) (cpu.regs i.rt))) ∧
    ((subu cpu i).regs r = V ∧ (subu cpu i).delayed_load = none ∧
      (i.rd ≠ 0 → (subu cpu i).regs i.rd = wrapping_sub (cpu.regs i.rs) (cpu.regs i.rt))) ∧
    ((sltu cpu i).regs r = V ∧ (sltu cpu i).delayed_load = none ∧
      (i.rd ≠ 0 → (sltu cpu i).regs i.rd =
        if cpu.regs i.rs < cpu.regs i.rt then 1 else 0)) ∧
    ((Psx.and cpu i).regs r = V ∧ (Psx.and cpu i).delayed_load = none ∧
      (i.rd ≠ 0 → (Psx.and cpu i).regs i.rd = cpu.regs i.rs &&& cpu.regs i.rt)) ∧
    ((Psx.or cpu i).regs r = V ∧ (Psx.or cpu i).delayed_load = none ∧
      (i.rd ≠ 0 → (Psx.or cpu i).regs i.rd = cpu.regs i.rs ||| cpu.regs i.rt)) ∧
    ((Psx.xor cpu i).regs r = V ∧ (Psx.xor cpu i).delayed_load = none ∧
      (i.rd ≠ 0 → (Psx.xor cpu i).regs i.rd = cpu.regs i.rs ^^^ cpu.regs i.rt)) ∧
    ((nor cpu i).regs r = V ∧ (nor cpu i).delayed_load = none ∧
      (i.rd ≠ 0 → (nor cpu i).regs i.rd = not32 (cpu.regs i.rs ||| cpu.regs i.rt))) :=
  ⟨commit_then_write cpu r V i.rd _ hp hr hd,
   commit_then_write cpu r V i.rd _ hp hr hd,
   commit_then_write cpu r V i.rd _ hp hr hd,
   commit_then_write cpu r V i.rd _ hp hr hd,
   commit_then_write cpu r V i.rd _ hp hr hd,
   commit_then_write cpu r V i.rd _ hp hr hd,
   commit_then_write cpu r V i.rd _ hp hr hd⟩

def cpuW2 : Cpu :=
  { Cpu.new with regs := Function.update (fun _ => 0) (1 : Fin 32) 3
                 delayed_load := some (1, 7) }

def iW2 : Instruction := Instruction.new ((1 <<< 21) ||| (2 <<< 11))

/-- C2 witness: pending load of 7 into register 1, `addu` with
`rs = 1, rt = 0, rd = 2`. -/
theorem C2_delayed_load_ordering_witness :
    cpuW2.delayed_load = some (1, 7) ∧ (1 : Fin 32) ≠ 0 ∧ iW2.rd ≠ 1 ∧
    (addu cpuW2 iW2).regs 1 = 7 ∧ (addu cpuW2 iW2).delayed_load = none :=
  ⟨rfl, by decide, by decide,
   (C2_delayed_load_ordering cpuW2 1 7 iW2 rfl (by decide) (by decide)).1.1,
   (C2_delayed_load_ordering cpuW2 1 7 iW2 rfl (by decide) (by decide)).1.2.1⟩

def cpu3 : Cpu :=
  { Cpu.new with regs := Function.update (fun _ => 0) (1 : Fin 32) 3
                 delayed_load := some (1, 7) }

def i3 : Instruction := Instruction.new ((1 <<< 21) ||| (2 <<< 11))

/-- C3 counterexample: a delayed load of 7 into register 1 is pending
and `addu` (with `rs = 1`, `rt = 0`, `rd = 2`) reads register 1 in the
same step. The claim predicts the handler observes the freshly-arrived
value 7 and writes 7; the code writes the old value 3. -/
theorem C3_counterexample :
    cpu3.delayed_load = some (1, 7) ∧ cpu3.regs 1 = 3 ∧ cpu3.regs 0 = 0 ∧
    i3.rs = 1 ∧ i3.rt = 0 ∧ i3.rd = 2 ∧
    (addu cpu3 i3).regs 2 = 3 ∧ (addu cpu3 i3).regs 2 ≠ 7 := by decide

/-- C3 (amended): the pending delayed load is committed *after* the
current instruction's operand reads and *before* its writeback: the
handler's result is computed from the pre-commit register file (even
when an operand register is the pending register), the old value is
what the instruction observes, and the pending value `V` is in
`regs[r]` once the handler finishes (when the destination is not `r`). -/
theorem C3_commit_after_reads (cpu : Cpu) (r : Fin 32) (V : Nat) (i : Instruction)
    (hp : cpu.delayed_load = some (r, V)) :
    (i.rd ≠ 0 → (addu cpu i).regs i.rd = wrapping_add (cpu.regs i.rs) (cpu.regs i.rt)) ∧
    (i.rd ≠ 0 → (slt cpu i).regs i.rd =
      if toI32 (cpu.regs i.rs) < toI32 (cpu.regs i.rt) then 1 else 0) ∧
    (r ≠ 0 → i.rd ≠ r → (addu cpu i).regs r = V ∧ (addu cpu i).delayed_load = none) ∧
    (r ≠ 0 → i.rd ≠ r → (slt cpu i).regs r = V ∧ (slt cpu i).delayed_load = none) :=
  ⟨fun hd0 => write_regs_self cpu i.rd _ hd0,
   fun hd0 => write_regs_self cpu i.rd _ hd0,
   fun hr hd => ⟨(commit_then_write cpu r V i.rd _ hp hr hd).1,
                 (commit_then_write cpu r V i.rd _ hp hr hd).2.1⟩,
   fun hr hd => ⟨(commit_then_write cpu r V i.rd _ hp hr hd).1,
                 (commit_then_write cpu r V i.rd _ hp hr hd).2.1⟩⟩

def cpuW3 : Cpu :=
  { Cpu.new with regs := Function.update (fun _ => 0) (1 : Fin 32) 4
                 delayed_load := some (1, 9) }

def iW3 : Instruction := Instruction.new ((1 <<< 21) ||| (3 <<< 11))

/-- C3 witness: pending load of 9 into register 1, `addu` with
`rs = 1, rt = 0, rd = 3` computes from the old value 4. -/
theorem C3_commit_after_reads_witness :
    cpuW3.delayed_load = some (1, 9) ∧ iW3.rd ≠ 0 ∧
    (addu cpuW3 iW3).regs iW3.rd = 4 :=
  ⟨rfl, by decide,
   ((C3_commit_after_reads cpuW3 1 9 iW3 rfl).1 (by decide)).trans (by decide)⟩

def cpu4 : Cpu := { Cpu.new with regs := Function.update (fun _ => 0) (1 : Fin 32) 5 }

def i4 : Instruction := Instruction.new ((9 <<< 26) ||| (1 <<< 21) ||| (2 <<< 16) ||| 0x1800)

def cpu4b : Cpu :=
  { Cpu.new with
      regs := Function.update (Function.update (fun _ => 0) (1 : Fin 32) 0xFFFFFFFF)
        (2 : Fin 32) 1 }

def i4b : Instruction := Instruction.new ((1 <<< 21) ||| (2 <<< 16) ||| (3 <<< 11))

/-- C4 failing input: `addiu` with `rs = 1, rt = 2` and immediate
`0x1800` (whose bits 15:11 are 3). The claim says the sum lands in
`rt = 2`; the code writes it into the `rd` field (register 3) and
leaves register 2 untouched. (The wraparound part of the claim is
honoured: `addu` on `0xFFFFFFFF + 1` yields 0, no fault.) -/
theorem C4_addiu_wrong_destination :
    i4.rs = 1 ∧ i4.rt = 2 ∧ i4.rd = 3 ∧ i4.simm = 0x1800 ∧ cpu4.regs 1 = 5 ∧
    (addiu cpu4 i4).regs 2 = 0 ∧ (addiu cpu4 i4).regs 2 ≠ 0x1805 ∧
    (addiu cpu4 i4).regs 3 = 0x1805 ∧
    (addu cpu4b i4b).regs 3 = 0 := by decide

def i5 : Instruction := Instruction.new ((13 <<< 26) ||| (2 <<< 16) ||| 0xF000)

/-- C5 failing input: the immediate accessor masks with `0xfff`, not
`0xffff`, so the top four bits of the 16-bit field are lost:
`imm(0xF000) = 0` where the claim requires `0xF000`, and `ori`/`xori`
with immediate field `0xF000` write 0 into `rt` instead of `0xF000`. -/
theorem C5_imm_truncated :
    (Instruction.new 0xF000).imm = 0 ∧ (Instruction.new 0xFFFF).imm = 0x0FFF ∧
    i5.rt = 2 ∧ Cpu.new.regs i5.rs = 0 ∧
    (ori Cpu.new i5).regs 2 = 0 ∧ (ori Cpu.new i5).regs 2 ≠ 0xF000 ∧
    (xori Cpu.new i5).regs 2 = 0 := by decide

/-- C6 failing input: the secondary-opcode accessor masks with `0x1f`
(5 bits), not `0x3f` (6 bits): `op2(0x20) = 0` where the claim requires
`0x20`, and `op2(0x3F) = 0x1F` where the claim requires `0x3F`. -/
theorem C6_op2_five_bits :
    (Instruction.new 0x20).op2 = 0 ∧ (Instruction.new 0x20).op2 ≠ 0x20 ∧
    (Instruction.new 0x3F).op2 = 0x1F ∧
    (Instruction.new 0xFFFFFFFF).op2 = 0x1F := by decide

/-- C8 failing input: the scratchpad masks offsets with `0x7fffff`, not
with its 1024-byte size, so offset 1024 is not wrapped to 0: both load
and store index out of the array's bounds (a panic, modelled `none`),
while in-bounds accesses succeed. -/
theorem C8_scratchpad_oob :
    ScratchPad.new.load 1 1024 = none ∧
    ScratchPad.new.store 1 1024 0xAB = none ∧
    ScratchPad.new.load 4 1021 = none ∧
    ScratchPad.new.load 1 1023 = some 0 :=
  ⟨rfl, rfl, rfl, rfl⟩

/-- C10 failing input: the name table has "s7" at both indices 22 and
23 and never contains "s6", so the 32 standard names do not each appear
exactly once; the dump pairs registers with exactly this table. -/
theorem C10_reg_names_duplicate :
    REG_NAMES.length = 32 ∧
    REG_NAMES.getD 21 "" = "s5" ∧ REG_NAMES.getD 22 "" = "s7" ∧
    REG_NAMES.getD 23 "" = "s7" ∧ ¬ REG_NAMES.contains "s6" ∧
    REG_NAMES.count "s7" = 2 ∧
    (Cpu.new.dumpPairs.map Prod.fst = REG_NAMES) := by decide

/-- A value below `2 ^ k` or-ed with a value shifted left by `k` is
their sum (the bit ranges are disjoint). -/
theorem lor_shiftLeft_eq_add {a : Nat} (b k : Nat) (h : a < 2 ^ k) :
    a ||| b <<< k = a + b <<< k := by
  rw [Nat.shiftLeft_eq, Nat.or_comm, Nat.mul_comm, ← Nat.mul_add_lt_is_or h, Nat.mul_comm]
  omega

/-- C7: the region mapper is the pure mask-table lookup: both kernel
segments KSEG0 (top bits 100) and KSEG1 (top bits 101) have their top
three bits stripped, the user segment (top bit 0) is mapped
identically, and the three spec addresses map as stated. -/
theorem C7_region_mapper :
    map.mask 0x80010000 = 0x00010000 ∧
    map.mask 0xA0010000 = 0x00010000 ∧
    map.mask 0x00010000 = 0x00010000 ∧
    (∀ addr, addr < 2 ^ 32 → addr >>> 29 = 4 → map.mask addr = addr % 2 ^ 29) ∧
    (∀ addr, addr < 2 ^ 32 → addr >>> 29 = 5 → map.mask addr = addr % 2 ^ 29) ∧
    (∀ addr, addr < 2 ^ 31 → map.mask addr = addr) := by
  refine ⟨by decide, by decide, by decide, ?_, ?_, ?_⟩
  · intro addr h32 h4
    have hs : addr >>> 29 = addr / 2 ^ 29 := Nat.shiftRight_eq_div_pow addr 29
    simp only [map.mask]
    rw [h4]
    show addr &&& 0x7FFFFFFF = addr % 2 ^ 29
    rw [show (0x7FFFFFFF : Nat) = 2 ^ 31 - 1 by norm_num,
      Nat.and_pow_two_sub_one_eq_mod]
    rw [hs] at h4
    omega
  · intro addr h32 h5
    have hs : addr >>> 29 = addr / 2 ^ 29 := Nat.shiftRight_eq_div_pow addr 29
    simp only [map.mask]
    rw [h5]
    show addr &&& 0x1FFFFFFF = addr % 2 ^ 29
    rw [show (0x1FFFFFFF : Nat) = 2 ^ 29 - 1 by norm_num,
      Nat.and_pow_two_sub_one_eq_mod]
  · intro addr h31
    have hs : addr >>> 29 = addr / 2 ^ 29 := Nat.shiftRight_eq_div_pow addr 29
    have h03 : addr >>> 29 = 0 ∨ addr >>> 29 = 1 ∨ addr >>> 29 = 2 ∨ addr >>> 29 = 3 := by
      rw [hs]; omega
    have hmask : map.REGION_MASKS.getD (addr >>> 29) 0 = 0xFFFFFFFF := by
      rcases h03 with h | h | h | h <;> rw [h] <;> rfl
    simp only [map.mask]
    rw [hmask, show (0xFFFFFFFF : Nat) = 2 ^ 32 - 1 by norm_num,
      Nat.and_pow_two_sub_one_eq_mod]
    omega

/-- C7 witness: a KSEG1 address. -/
theorem C7_region_mapper_witness :
    (0xA0123456 : Nat) < 2 ^ 32 ∧ (0xA0123456 : Nat) >>> 29 = 5 ∧
    map.mask 0xA0123456 = 0xA0123456 % 2 ^ 29 :=
  ⟨by norm_num, by decide,
   C7_region_mapper.2.2.2.2.1 0xA0123456 (by norm_num) (by decide)⟩

/-- C9: storing a 4-byte value at scratchpad offset 0 succeeds, and
reading it back as one 4-byte load returns the value, while 1-byte
loads at offsets 0..3 return its bytes, least significant byte at the
lowest address. -/
theorem C9_scratchpad_roundtrip (sp : ScratchPad) (v : Nat) (hv : v < 2 ^ 32) :
    ∃ sp2, sp.store 4 0 v = some sp2 ∧
      sp2.load 4 0 = some v ∧
      sp2.load 1 0 = some (v % 2 ^ 8) ∧
      sp2.load 1 1 = some ((v >>> 8) % 2 ^ 8) ∧
      sp2.load 1 2 = some ((v >>> 16) % 2 ^ 8) ∧
      sp2.load 1 3 = some ((v >>> 24) % 2 ^ 8) := by
  refine ⟨⟨Function.update (Function.update (Function.update (Function.update sp.dat
      ⟨0, by decide⟩ (v % 2 ^ 8)) ⟨1, by decide⟩ ((v >>> 8) % 2 ^ 8))
      ⟨2, by decide⟩ ((v >>> 16) % 2 ^ 8)) ⟨3, by decide⟩ ((v >>> 24) % 2 ^ 8)⟩,
    rfl, ?_, ?_, ?_, ?_, ?_⟩
  · show some (((((0 ||| (v % 2 ^ 8) <<< 0) ||| ((v >>> 8) % 2 ^ 8) <<< 8)
        ||| ((v >>> 16) % 2 ^ 8) <<< 16) ||| ((v >>> 24) % 2 ^ 8) <<< 24) % 2 ^ 32)
      = some v
    rw [Option.some_inj, Nat.zero_or, Nat.shiftLeft_zero]
    rw [lor_shiftLeft_eq_add _ 8 (by omega)]
    rw [lor_shiftLeft_eq_add _ 16 (by simp only [Nat.shiftLeft_eq]; omega)]
    rw [lor_shiftLeft_eq_add _ 24 (by simp only [Nat.shiftLeft_eq]; omega)]
    simp only [Nat.shiftLeft_eq, Nat.shiftRight_eq_div_pow]
    omega
  · show some ((0 ||| (v % 2 ^ 8) <<< 0) % 2 ^ 8) = some (v % 2 ^ 8)
    rw [Option.some_inj, Nat.zero_or, Nat.shiftLeft_zero]
    omega
  · show some ((0 ||| ((v >>> 8) % 2 ^ 8) <<< 0) % 2 ^ 8) = some ((v >>> 8) % 2 ^ 8)
    rw [Option.some_inj, Nat.zero_or, Nat.shiftLeft_zero]
    omega
  · show some ((0 ||| ((v >>> 16) % 2 ^ 8) <<< 0) % 2 ^ 8) = some ((v >>> 16) % 2 ^ 8)
    rw [Option.some_inj, Nat.zero_or, Nat.shiftLeft_zero]
    omega
  · show some ((0 ||| ((v >>> 24) % 2 ^ 8) <<< 0) % 2 ^ 8) = some ((v >>> 24) % 2 ^ 8)
    rw [Option.some_inj, Nat.zero_or, Nat.shiftLeft_zero]
    omega

/-- C9 witness at a concrete value. -/
theorem C9_scratchpad_roundtrip_witness :
    (0x12345678 : Nat) < 2 ^ 32 ∧
    ∃ sp2, ScratchPad.new.store 4 0 0x12345678 = some sp2 ∧
      sp2.load 4 0 = some 0x12345678 ∧
      sp2.load 1 0 = some (0x12345678 % 2 ^ 8) ∧
      sp2.load 1 1 = some ((0x12345678 >>> 8) % 2 ^ 8) ∧
      sp2.load 1 2 = some ((0x12345678 >>> 16) % 2 ^ 8) ∧
      sp2.load 1 3 = some ((0x12345678 >>> 24) % 2 ^ 8) :=
  ⟨by norm_num, C9_scratchpad_roundtrip ScratchPad.new 0x12345678 (by norm_num)⟩

end Psx
